import Mathlib

/-!
Verification development for the saudi-standards-api normalization and
query engine (src/server.ts).  The TypeScript source is shallowly embedded:
JSON documents become the `Json` inductive, the three clause-extraction
regular expressions become hand-derived backtracking scanners over
`List Char` with JavaScript semantics, and the four request handlers become
pure functions over the in-memory corpus (a `List NormalizedRecord`).
-/

/-- Fragment of JSON needed by the normalizer: null, strings, arrays and
objects (the data files carry clause text and nested structure as these). -/
inductive Json where
  | null : Json
  | str : String → Json
  | arr : List Json → Json
  | obj : List (String × Json) → Json

/-- JavaScript property access `j.k`: first binding of the key in an object,
`undefined` (here `null`) on anything else. -/
def Json.get (j : Json) (k : String) : Json :=
  match j with
  | .obj kvs =>
    match kvs.find? (fun kv => kv.1 == k) with
    | some kv => kv.2
    | none => .null
  | _ => .null

/-- JavaScript truthiness for the modeled values: `undefined`/`null` and the
empty string are falsy; every non-empty string, array and object is truthy. -/
def Json.truthy : Json → Bool
  | .null => false
  | .str s => s ≠ ""
  | .arr _ => true
  | .obj _ => true

/-- Reading a value where the source expects a string (non-strings give ""). -/
def Json.asStr : Json → String
  | .str s => s
  | _ => ""

/-- `Array.isArray` on a modeled value. -/
def Json.isArr : Json → Bool
  | .arr _ => true
  | _ => false

/-- First truthy value of a JavaScript `a || b || ...` chain of document
fields (`null` when all are falsy). -/
def firstTruthy : List Json → Json
  | [] => .null
  | v :: vs => if v.truthy then v else firstTruthy vs

/-- String-valued `a || b || ... || dflt` fallback chain. -/
def jsOr (vs : List Json) (dflt : String) : String :=
  let v := firstTruthy vs
  if v.truthy then v.asStr else dflt

/-- The tags fallback from the source:
`Array.isArray(x.tags) ? x.tags : (x.tag ? [x.tag] : [])`. -/
def jsTags (j : Json) : List String :=
  match j.get "tags" with
  | .arr xs => xs.map Json.asStr
  | _ => if (j.get "tag").truthy then [(j.get "tag").asStr] else []

/-- JavaScript `\s` (the whitespace characters occurring in the data:
space, tab, line/page breaks, NBSP and BOM; other rare Unicode spaces
are not modeled). -/
def isJsWs (c : Char) : Bool :=
  c = ' ' || c = '\t' || c = '\n' || c = '\r' ||
  c = '\x0b' || c = '\x0c' || c = ' ' || c = '﻿'

/-- Sentence-ending class `[.!?]` used to derive titles. -/
def isSentEnd (c : Char) : Bool :=
  c = '.' || c = '!' || c = '?'

/-- `String.prototype.trim()` on a character list. -/
def jsTrim (l : List Char) : List Char :=
  ((l.dropWhile isJsWs).reverse.dropWhile isJsWs).reverse

/-- `trim()` on a `String`. -/
def jsTrimS (s : String) : String :=
  (jsTrim s.data).asString

/-- Worker for `collapseWs`; the flag records whether the previous character
was whitespace (so a run contributes a single space). -/
def collapseGo : Bool → List Char → List Char
  | _, [] => []
  | prevWs, c :: r =>
    if isJsWs c then
      if prevWs then collapseGo true r else ' ' :: collapseGo true r
    else c :: collapseGo false r

/-- `replace(/\s+/g, ' ')`: each maximal whitespace run becomes one space. -/
def collapseWs (l : List Char) : List Char :=
  collapseGo false l

/-- Worker for `splitRun`; the flag records whether we are inside a
separator run (whose first character already closed the previous piece). -/
def splitRunGo (sep : Char → Bool) : Bool → List Char → List Char → List (List Char)
  | _, acc, [] => [acc.reverse]
  | true, acc, c :: r =>
    if sep c then splitRunGo sep true acc r
    else splitRunGo sep false (c :: acc) r
  | false, acc, c :: r =>
    if sep c then acc.reverse :: splitRunGo sep true [] r
    else splitRunGo sep false (c :: acc) r

/-- `split(/[cls]+/)`: pieces between maximal runs of a character class
(JavaScript semantics, including leading/trailing empty pieces).  Used for
`split(/[.!?]+/)` and `split(/\s+/)`. -/
def splitRun (sep : Char → Bool) (l : List Char) : List (List Char) :=
  splitRunGo sep false [] l

/-- Lowercasing as JavaScript `toLowerCase()` does on the ASCII data. -/
def lowerS (s : String) : String :=
  (s.data.map Char.toLower).asString

/-- `hay.includes(needle)` on character lists. -/
def containsSub (hay needle : List Char) : Bool :=
  if needle.isPrefixOf hay then true
  else
    match hay with
    | [] => false
    | _ :: t => containsSub t needle

/-- `hay.includes(needle)` on strings. -/
def containsSubS (hay needle : String) : Bool :=
  containsSub hay.data needle.data

/-- `s.endsWith(suffix)`. -/
def endsWithS (s suffix : String) : Bool :=
  suffix.data.reverse.isPrefixOf s.data.reverse

/-!
The three clause-extraction regular expressions of `parseContentIntoClauses`
(src/server.ts lines 129-137), embedded as backtracking scanners with the
JavaScript leftmost-match, greedy/lazy and lookahead semantics:

  numberedPattern = /(\d+\.\d+(?:\.\d+)*(?:\.\d+)?)\s+([^\d]+?)(?=\d+\.\d+(?:\.\d+)*|Article\s*\(|$)/gs
  articlePattern  = /Article\s*\((\d+)\)(?:\s*[:])?\s*([^A]+?)(?=Article\s*\(|$)/gis
  sectionPattern  = /(\d+\.\d+)\s+([^\d]+?)(?=\d+\.\d+|Article\s*\(|$)/gs
-/

/-- Greedy `(?:\.\d+)*` tail of a dotted numeric label: consumes as many
`.digits` groups as are present, returning (consumed, rest).  The fuel is
structural bookkeeping only; every call supplies the list length, which the
two-character minimum consumption per group never exhausts. -/
def dotGroups : Nat → List Char → List Char × List Char
  | _, [] => ([], [])
  | 0, s => ([], s)
  | fuel + 1, c :: r =>
    if c = '.' ∧ r.takeWhile Char.isDigit ≠ [] then
      let pr := dotGroups fuel (r.dropWhile Char.isDigit)
      ('.' :: r.takeWhile Char.isDigit ++ pr.1, pr.2)
    else ([], c :: r)

/-- The capture `\d+\.\d+(?:\.\d+)*(?:\.\d+)?` of `numberedPattern` (a dotted
numeric label with at least two components; the trailing optional group is
subsumed by the greedy star). -/
def parseNumLabel (s : List Char) : Option (List Char × List Char) :=
  let d1 := s.takeWhile Char.isDigit
  if d1 = [] then none
  else
    match s.dropWhile Char.isDigit with
    | '.' :: r2 =>
      let d2 := r2.takeWhile Char.isDigit
      if d2 = [] then none
      else
        let r3 := r2.dropWhile Char.isDigit
        let pr := dotGroups r3.length r3
        some (d1 ++ '.' :: d2 ++ pr.1, pr.2)
    | _ => none

/-- The capture `\d+\.\d+` of `sectionPattern` (exactly two components). -/
def parseSecLabel (s : List Char) : Option (List Char × List Char) :=
  let d1 := s.takeWhile Char.isDigit
  if d1 = [] then none
  else
    match s.dropWhile Char.isDigit with
    | '.' :: r2 =>
      let d2 := r2.takeWhile Char.isDigit
      if d2 = [] then none else some (d1 ++ '.' :: d2, r2.dropWhile Char.isDigit)
    | _ => none

/-- Lookahead alternative `\d+\.\d+(?:\.\d+)*` of `numberedPattern`. -/
def numLabelAt (s : List Char) : Bool :=
  (parseNumLabel s).isSome

/-- Lookahead alternative `\d+\.\d+` of `sectionPattern`. -/
def secLabelAt (s : List Char) : Bool :=
  (parseSecLabel s).isSome

/-- Case-insensitive literal prefix match (the `i` flag of `articlePattern`). -/
def stripPrefixCI : List Char → List Char → Option (List Char)
  | [], s => some s
  | _, [] => none
  | p :: ps, c :: cs => if c.toLower = p.toLower then stripPrefixCI ps cs else none

/-- Lookahead alternative `Article\s*\(` (case-insensitive); `\s*` is greedy
and deterministic here because `(` is not whitespace. -/
def articleOpenAt (s : List Char) : Bool :=
  match stripPrefixCI "article".data s with
  | some r => (r.dropWhile isJsWs).head? == some '('
  | none => false

/-- Worker for `lazyBody`: the accumulated capture grows one character at a
time, checking the lookahead `stop` before each further character (lazy `+?`
over a character class whose complement is `bad`). -/
def lazyBodyGo (stop : List Char → Bool) (bad : Char → Bool) :
    List Char → List Char → Option (List Char × List Char)
  | acc, [] => if stop [] then some (acc.reverse, []) else none
  | acc, c :: r =>
    if stop (c :: r) then some (acc.reverse, c :: r)
    else if bad c then none
    else lazyBodyGo stop bad (c :: acc) r

/-- Lazy `[^bad]+?(?=stop)`: at least one character not in `bad`, extended
minimally until the lookahead `stop` holds (`stop` must accept `[]` when the
pattern has an `$` alternative). -/
def lazyBody (stop : List Char → Bool) (bad : Char → Bool) (s : List Char) :
    Option (List Char × List Char) :=
  match s with
  | [] => none
  | c :: r => if bad c then none else lazyBodyGo stop bad [c] r

/-- Worker for the `\s`-quantifier/lazy-body combination: tries dropping `k`
whitespace characters (largest first, mirroring greedy backtracking) before
starting the lazy body. -/
def wsLazyGo (stop : List Char → Bool) (bad : Char → Bool) (r : List Char) :
    Nat → Option (List Char × List Char)
  | 0 => none
  | k + 1 =>
    match lazyBody stop bad (r.drop (k + 1)) with
    | some pr => some pr
    | none => wsLazyGo stop bad r k

/-- Greedy `\s+` followed by a lazy body: the whitespace run is consumed
maximally, giving characters back to the (whitespace-tolerant) body only on
failure; at least one whitespace character is required. -/
def wsThenLazy (stop : List Char → Bool) (bad : Char → Bool) (r : List Char) :
    Option (List Char × List Char) :=
  wsLazyGo stop bad r (r.takeWhile isJsWs).length

/-- Greedy `\s*` followed by a lazy body (zero whitespace is tried last). -/
def wsStarThenLazy (stop : List Char → Bool) (bad : Char → Bool) (r : List Char) :
    Option (List Char × List Char) :=
  match wsLazyGo stop bad r (r.takeWhile isJsWs).length with
  | some pr => some pr
  | none => lazyBody stop bad r

/-- Lookahead of `numberedPattern`: next dotted label, article opener or end. -/
def numStop (t : List Char) : Bool :=
  numLabelAt t || articleOpenAt t || t.isEmpty

/-- Lookahead of `articlePattern`: next article opener or end. -/
def artStop (t : List Char) : Bool :=
  articleOpenAt t || t.isEmpty

/-- Lookahead of `sectionPattern`: next two-component label, article opener
or end. -/
def secStop (t : List Char) : Bool :=
  secLabelAt t || articleOpenAt t || t.isEmpty

/-- One attempt of `numberedPattern` anchored at the current position:
label capture, mandatory whitespace, then the lazy non-digit body up to the
lookahead.  Returns (match[1], match[2], rest after the match). -/
def tryNumbered (s : List Char) : Option (List Char × List Char × List Char) :=
  match parseNumLabel s with
  | none => none
  | some (lbl, r1) =>
    match wsThenLazy numStop Char.isDigit r1 with
    | none => none
    | some (body, rest) => some (lbl, body, rest)

/-- One attempt of `articlePattern` anchored at the current position:
`Article\s*\((\d+)\)`, the optional colon group (tried with the colon first,
as the greedy optional does), then the lazy `[^A]+?` body (`A` and `a` are
excluded by the `i` flag). -/
def tryArticle (s : List Char) : Option (List Char × List Char × List Char) :=
  match stripPrefixCI "article".data s with
  | none => none
  | some r1 =>
    match r1.dropWhile isJsWs with
    | '(' :: r3 =>
      let ds := r3.takeWhile Char.isDigit
      if ds = [] then none
      else
        match r3.dropWhile Char.isDigit with
        | ')' :: r5 =>
          let body :=
            match r5.dropWhile isJsWs with
            | ':' :: r6 =>
              match wsStarThenLazy artStop (fun c => c.toLower = 'a') r6 with
              | some pr => some pr
              | none => wsStarThenLazy artStop (fun c => c.toLower = 'a') r5
            | _ => wsStarThenLazy artStop (fun c => c.toLower = 'a') r5
          match body with
          | none => none
          | some (bd, rest) => some (ds, bd, rest)
        | _ => none
    | _ => none

/-- One attempt of `sectionPattern` anchored at the current position. -/
def trySection (s : List Char) : Option (List Char × List Char × List Char) :=
  match parseSecLabel s with
  | none => none
  | some (lbl, r1) =>
    match wsThenLazy secStop Char.isDigit r1 with
    | none => none
    | some (body, rest) => some (lbl, body, rest)

/-- `matchAll` driver: scan left to right, try the pattern at each position,
continue after each match (all our matches are non-empty, so the fuel
`length + 1` is never exhausted). -/
def scanMatches (try1 : List Char → Option (List Char × List Char × List Char)) :
    Nat → List Char → List (List Char × List Char)
  | 0, _ => []
  | fuel + 1, s =>
    match try1 s with
    | some (g1, g2, rest) => (g1, g2) :: scanMatches try1 fuel rest
    | none =>
      match s with
      | [] => []
      | _ :: t => scanMatches try1 fuel t

/-- `Array.from(content.matchAll(numberedPattern))`, as (match[1], match[2]). -/
def numberedMatches (content : String) : List (List Char × List Char) :=
  scanMatches tryNumbered (content.length + 1) content.data

/-- `Array.from(content.matchAll(articlePattern))`. -/
def articleMatches (content : String) : List (List Char × List Char) :=
  scanMatches tryArticle (content.length + 1) content.data

/-- `Array.from(content.matchAll(sectionPattern))`. -/
def sectionMatches (content : String) : List (List Char × List Char) :=
  scanMatches trySection (content.length + 1) content.data

/-- The strategy cascade of `parseContentIntoClauses` (lines 139-157): the
numbered pattern wins with more than one match, else the article pattern,
else the section pattern, else no matches. -/
def selectMatches (content : String) : List (List Char × List Char) :=
  let nm := numberedMatches content
  if 1 < nm.length then nm
  else
    let am := articleMatches content
    if 1 < am.length then am
    else
      let sm := sectionMatches content
      if 1 < sm.length then sm else []

/-- Worker for `splitPara`, scanning for `/\n\s*\n/` separators.  A separator
is a newline whose following whitespace run contains another newline; the
greedy `\s*` backtracks so the match ends at the LAST newline of that run
(whitespace after it stays in the next piece). -/
def splitParaGo : Nat → List Char → List Char → List (List Char)
  | _, acc, [] => [acc.reverse]
  | 0, acc, s => [acc.reverse ++ s]
  | fuel + 1, acc, c :: r =>
    if c = '\n' ∧ (r.takeWhile isJsWs).contains '\n' then
      let run := r.takeWhile isJsWs
      let m := (run.reverse.takeWhile (fun x => ¬ x = '\n')).length
      acc.reverse :: splitParaGo fuel [] (r.drop (run.length - m))
    else splitParaGo fuel (c :: acc) r

/-- `content.split(/\n\s*\n/)` with JavaScript semantics (the fuel equals
the input length and is never exhausted, every step consuming a character). -/
def splitPara (l : List Char) : List (List Char) :=
  splitParaGo l.length [] l

/-- The canonical requirement record (interface NormalizedRecord,
src/server.ts lines 19-30). -/
structure NormalizedRecord where
  standard : String
  directiveCode : String
  sectionCode : String
  clauseId : String
  title : String
  text : String
  facilityClass : String
  domain : String
  tags : List String
  reference : String
deriving DecidableEq

/-- The `matches.forEach` body (lines 161-187): a match with cleaned text
longer than 20 characters becomes a record; the title is the first sentence
(at most 200 chars) or a synthetic `Clause` label, the text is capped at
10,000 characters and the reference is the trimmed
`"{standard} {directiveCode} {sectionCode} {clauseId}"` template. -/
def cascadeRecord (standard directiveCode sectionCode domain : String)
    (im : Nat × (List Char × List Char)) : Option NormalizedRecord :=
  let clauseId := if im.2.1 ≠ [] then im.2.1.asString else toString (im.1 + 1)
  let text := jsTrim (collapseWs (jsTrim im.2.2))
  if 20 < text.length then
    let firstSentence := jsTrim ((splitRun isSentEnd text).headD [])
    let title0 := firstSentence.take 200
    let title := if title0 ≠ [] then title0.asString else "Clause " ++ clauseId
    some
      { standard := standard, directiveCode := directiveCode,
        sectionCode := sectionCode, clauseId := clauseId,
        title := if 0 < title.length then title else "Clause " ++ clauseId,
        text := (text.take 10000).asString,
        facilityClass := "", domain := domain, tags := [],
        reference :=
          jsTrimS (standard ++ " " ++ directiveCode ++ " " ++ sectionCode ++ " " ++ clauseId) }
  else none

/-- Records built from the selected cascade matches (lines 160-188). -/
def cascadeRecords (ms : List (List Char × List Char))
    (standard directiveCode sectionCode domain : String) : List NormalizedRecord :=
  ms.enum.filterMap (cascadeRecord standard directiveCode sectionCode domain)

/-- One record of the paragraph fallback (the shared body of lines 200-219
and 223-243, with the minimum length 100 or 50 as the only difference). -/
def paraRecord (minLen : Nat) (standard directiveCode sectionCode domain : String)
    (ip : Nat × List Char) : Option NormalizedRecord :=
  let trimmed := collapseWs (jsTrim ip.2)
  if minLen < trimmed.length then
    let firstSentence := jsTrim ((splitRun isSentEnd trimmed).headD [])
    let title0 := firstSentence.take 200
    some
      { standard := standard, directiveCode := directiveCode,
        sectionCode := sectionCode, clauseId := toString (ip.1 + 1),
        title := if title0 ≠ [] then title0.asString else "Requirement " ++ toString (ip.1 + 1),
        text := (trimmed.take 10000).asString,
        facilityClass := "", domain := domain, tags := [],
        reference :=
          jsTrimS (standard ++ " " ++ directiveCode ++ " " ++ sectionCode ++ " " ++
            toString (ip.1 + 1)) }
  else none

/-- The paragraph-splitting fallback (lines 192-245): split on blank-line
boundaries, keep paragraphs whose trimmed length exceeds 100; with more
than 3 survivors each must still exceed 100 once whitespace-collapsed,
otherwise the lower minimum 50 applies. -/
def paragraphRecords (content : String)
    (standard directiveCode sectionCode domain : String) : List NormalizedRecord :=
  let paragraphs := (splitPara content.data).filter (fun p => 100 < (jsTrim p).length)
  if 3 < paragraphs.length then
    paragraphs.enum.filterMap (paraRecord 100 standard directiveCode sectionCode domain)
  else
    paragraphs.enum.filterMap (paraRecord 50 standard directiveCode sectionCode domain)

/-- The whole-document fallback record (lines 248-266). -/
def wholeDocRecord (content : String)
    (standard directiveCode sectionCode domain : String) : NormalizedRecord :=
  let trimmed := (collapseWs (jsTrim content.data)).take 10000
  let firstSentence := jsTrim ((splitRun isSentEnd trimmed).headD [])
  let title0 := firstSentence.take 200
  { standard := standard, directiveCode := directiveCode,
    sectionCode := sectionCode, clauseId := "1",
    title :=
      if title0 ≠ [] then title0.asString
      else if sectionCode ≠ "" then sectionCode else "Requirement",
    text := trimmed.asString,
    facilityClass := "", domain := domain, tags := [],
    reference := jsTrimS (standard ++ " " ++ directiveCode ++ " " ++ sectionCode ++ " 1") }

/-- `parseContentIntoClauses` (lines 116-269): empty/blank content yields
nothing; otherwise the cascade records, then - only when those are empty
and the content is longer than 200 characters - the paragraph fallback,
then - only when still empty and the content is longer than 100
characters - the single whole-document record. -/
def parseContentIntoClauses (content : String)
    (standard directiveCode sectionCode domain : String) : List NormalizedRecord :=
  if (jsTrim content.data).length = 0 then []
  else
    let results1 := cascadeRecords (selectMatches content) standard directiveCode sectionCode domain
    let results2 :=
      if results1 = [] ∧ 200 < content.length then
        paragraphRecords content standard directiveCode sectionCode domain
      else []
    let results3 :=
      if results1 ++ results2 = [] ∧ 100 < content.length then
        [wholeDocRecord content standard directiveCode sectionCode domain]
      else []
    results1 ++ results2 ++ results3

/-- One explicit-clause record of the HCIS walk (lines 288-301). -/
def hcisClauseRecord (standard domain directiveCode sectionCode : String)
    (sectionTitle : Json) (ic : Nat × Json) : NormalizedRecord :=
  let clause := ic.2
  { standard := standard, directiveCode := directiveCode, sectionCode := sectionCode,
    clauseId := jsOr [clause.get "clause_id", clause.get "id"] (toString (ic.1 + 1)),
    title := jsOr [clause.get "title", clause.get "heading", sectionTitle] "",
    text := jsOr [clause.get "text", clause.get "content", clause.get "requirement",
      clause.get "description"] "",
    facilityClass := jsOr [clause.get "facility_class", clause.get "facilityClass",
      clause.get "class"] "",
    domain := domain,
    tags := jsTags clause,
    reference :=
      if (clause.get "reference").truthy then (clause.get "reference").asStr
      else
        jsTrimS (standard ++ " " ++ directiveCode ++ " " ++ sectionCode ++ " " ++
          (if (clause.get "clause_id").truthy then (clause.get "clause_id").asStr
           else toString (ic.1 + 1))) }

/-- The per-section body of the HCIS walk (lines 283-310): explicit clause
records when a non-empty clause array exists, plus segmenter output when the
section carries non-blank free text. -/
def hcisSectionRecords (standard domain directiveCode : String) (sect : Json) :
    List NormalizedRecord :=
  let sectionCode := jsOr [sect.get "section_code", sect.get "sectionCode"] ""
  let clauseRecs :=
    match sect.get "clauses" with
    | .arr cs =>
      if 0 < cs.length then
        cs.enum.map (hcisClauseRecord standard domain directiveCode sectionCode
          (sect.get "section_title"))
      else []
    | _ => []
  let contentRecs :=
    if (sect.get "content").truthy ∧ (jsTrim (sect.get "content").asStr.data).length > 0 then
      parseContentIntoClauses (sect.get "content").asStr standard directiveCode sectionCode domain
    else []
  clauseRecs ++ contentRecs

/-- `fromHcis` (lines 272-315): walk directives and their structured
sections, then keep only records with a truthy title or text. -/
def fromHcis (raw : Json) (standard domain : String) : List NormalizedRecord :=
  match raw.get "directives" with
  | .arr ds =>
    (ds.flatMap fun d =>
      let directiveCode := jsOr [d.get "directive_code", d.get "directiveCode"] ""
      match d.get "structured_sections" with
      | .arr ss => ss.flatMap (hcisSectionRecords standard domain directiveCode)
      | _ => []).filter (fun r => r.title ≠ "" || r.text ≠ "")
  | _ => []

/-- One explicit-clause record of the document-rooted walk (lines 330-343);
unlike the HCIS variant, `directiveCode` is empty and the synthesized
reference has no directive component. -/
def docClauseRecord (standard domain sectionCode : String)
    (sectionTitle : Json) (ic : Nat × Json) : NormalizedRecord :=
  let clause := ic.2
  { standard := standard, directiveCode := "", sectionCode := sectionCode,
    clauseId := jsOr [clause.get "clause_id", clause.get "id"] (toString (ic.1 + 1)),
    title := jsOr [clause.get "title", clause.get "heading", sectionTitle] "",
    text := jsOr [clause.get "text", clause.get "content", clause.get "requirement",
      clause.get "description"] "",
    facilityClass := jsOr [clause.get "facility_class", clause.get "facilityClass",
      clause.get "class"] "",
    domain := domain,
    tags := jsTags clause,
    reference :=
      if (clause.get "reference").truthy then (clause.get "reference").asStr
      else
        jsTrimS (standard ++ " " ++ sectionCode ++ " " ++
          (if (clause.get "clause_id").truthy then (clause.get "clause_id").asStr
           else toString (ic.1 + 1))) }

/-- The per-section body of the document-rooted walk (lines 325-352). -/
def docSectionRecords (standard domain : String) (sect : Json) : List NormalizedRecord :=
  let sectionCode := jsOr [sect.get "section_code", sect.get "sectionCode"] ""
  let clauseRecs :=
    match sect.get "clauses" with
    | .arr cs =>
      if 0 < cs.length then
        cs.enum.map (docClauseRecord standard domain sectionCode (sect.get "section_title"))
      else []
    | _ => []
  let contentRecs :=
    if (sect.get "content").truthy ∧ (jsTrim (sect.get "content").asStr.data).length > 0 then
      parseContentIntoClauses (sect.get "content").asStr standard "" sectionCode domain
    else []
  clauseRecs ++ contentRecs

/-- `fromDocumentStructure` (lines 318-355). -/
def fromDocumentStructure (raw : Json) (standard domain : String) : List NormalizedRecord :=
  match (raw.get "document").get "structured_sections" with
  | .arr ss =>
    (ss.flatMap (docSectionRecords standard domain)).filter
      (fun r => r.title ≠ "" || r.text ≠ "")
  | _ => []

/-- The single-object fallback record of `normalizeRecord` (lines 384-398),
with its per-attribute field-name fallback chains. -/
def genericRecord (record : Json) (standard domain : String) : NormalizedRecord :=
  { standard := standard,
    directiveCode := jsOr [record.get "directiveCode", record.get "directive_code",
      record.get "directive", record.get "chapter", record.get "section",
      record.get "code"] "",
    sectionCode := jsOr [record.get "sectionCode", record.get "section_code",
      record.get "subsection", record.get "article", record.get "clause"] "",
    clauseId := jsOr [record.get "clauseId", record.get "clause_id", record.get "id",
      record.get "clauseNumber", record.get "number", record.get "articleNumber"] "",
    title := jsOr [record.get "title", record.get "heading", record.get "name",
      record.get "description"] "",
    text := jsOr [record.get "text", record.get "content", record.get "requirement",
      record.get "clause", record.get "description"] "",
    facilityClass := jsOr [record.get "facilityClass", record.get "facility_class",
      record.get "class", record.get "occupancy", record.get "category"] "",
    domain := if (record.get "domain").truthy then (record.get "domain").asStr else domain,
    tags := jsTags record,
    reference :=
      if (record.get "reference").truthy then (record.get "reference").asStr
      else if (record.get "ref").truthy then (record.get "ref").asStr
      else
        jsTrimS (standard ++ " " ++
          jsOr [record.get "directiveCode", record.get "directive_code"] "" ++ " " ++
          jsOr [record.get "sectionCode", record.get "section_code"] "" ++ " " ++
          jsOr [record.get "clauseId", record.get "clause_id"] "") }

/-- `normalizeRecord` (lines 358-405): route to the HCIS walk when a
`directives` array is present, to the document-rooted walk when the
`document.structured_sections` chain is truthy, recurse element-wise on
arrays, and otherwise assemble the single fallback record, kept only when
its title or text is truthy. -/
def normalizeRecord (record : Json) (standard domain filename : String) :
    List NormalizedRecord :=
  if (record.get "directives").isArr then fromHcis record standard domain
  else if (record.get "document").truthy && ((record.get "document").get "structured_sections").truthy then
    fromDocumentStructure record standard domain
  else
    match record with
    | .arr items =>
      (items.attach.map (fun item => normalizeRecord item.1 standard domain filename)).flatten
    | _ =>
      let normalized := genericRecord record standard domain
      if normalized.title ≠ "" || normalized.text ≠ "" then [normalized] else []
termination_by sizeOf record
decreasing_by
  have h := List.sizeOf_lt_of_mem item.2
  simp
  omega

/-- Request body of `searchRequirements` (lines 32-39); absent fields are
`none`, and a supplied empty string is falsy exactly as in the source. -/
structure SearchBody where
  standard : Option String
  directiveCode : Option String
  facilityClass : Option String
  domain : Option String
  query : Option String
  limit : Option Nat
deriving DecidableEq

/-- Truthiness of an optional request field (`undefined` and "" are falsy). -/
def truthyOpt (o : Option String) : Bool :=
  o.getD "" ≠ ""

/-- `fuzzyMatch` (lines 460-472): full lowercase substring match, or every
whitespace-delimited token of the query contained independently. -/
def fuzzyMatch (text query : String) : Bool :=
  if query = "" then true
  else
    let lowerText := lowerS text
    let lowerQuery := lowerS query
    if containsSubS lowerText lowerQuery then true
    else ((splitRun isJsWs lowerQuery.data).all (fun w => containsSub lowerText.data w))

/-- The `searchRequirements` handler (lines 475-529): validation error when
every filter is falsy, otherwise sequential narrowing by each supplied
filter and truncation to the limit (default 50). -/
def searchRequirements (data : List NormalizedRecord) (b : SearchBody) :
    Except String (List NormalizedRecord) :=
  if ¬(truthyOpt b.standard || truthyOpt b.directiveCode || truthyOpt b.facilityClass ||
      truthyOpt b.domain || truthyOpt b.query) then
    .error "At least one filter is required (standard, directiveCode, facilityClass, domain, or query)"
  else
    let results := data
    let results :=
      if truthyOpt b.standard then
        results.filter (fun r => containsSubS (lowerS r.standard) (lowerS (b.standard.getD "")))
      else results
    let results :=
      if truthyOpt b.directiveCode then
        results.filter (fun r =>
          containsSubS (lowerS r.directiveCode) (lowerS (b.directiveCode.getD "")))
      else results
    let results :=
      if truthyOpt b.facilityClass then
        results.filter (fun r =>
          containsSubS (lowerS r.facilityClass) (lowerS (b.facilityClass.getD "")))
      else results
    let results :=
      if truthyOpt b.domain then
        results.filter (fun r => containsSubS (lowerS r.domain) (lowerS (b.domain.getD "")))
      else results
    let results :=
      if truthyOpt b.query then
        results.filter (fun r =>
          fuzzyMatch r.title (b.query.getD "") || fuzzyMatch r.text (b.query.getD ""))
      else results
    .ok (results.take (b.limit.getD 50))

/-- `normalizeRefString` (lines 450-457): lower-case, underscores to spaces,
whitespace runs collapsed, trimmed. -/
def normalizeRefString (ref : String) : String :=
  if ref = "" then ""
  else
    (jsTrim (collapseWs ((ref.data.map Char.toLower).map
      (fun c => if c = '_' then ' ' else c)))).asString

/-- The `getReference` handler (lines 532-566): validation error for a
missing or empty reference, then the first exact normalized match, then the
first suffix match, then not-found. -/
def getReference (data : List NormalizedRecord) (reference : Option String) :
    Except String NormalizedRecord :=
  match reference with
  | none => .error "reference (string) is required"
  | some ref =>
    if ref = "" then .error "reference (string) is required"
    else
      let refNorm := normalizeRefString ref
      match data.find? (fun r => normalizeRefString r.reference == refNorm) with
      | some r => .ok r
      | none =>
        match data.find? (fun r => endsWithS (normalizeRefString r.reference) refNorm) with
        | some r => .ok r
        | none => .error "Reference not found"

/-- A checklist entry (lines 618-628): the record reshaped with
`requirement := text` and a constant `mandatory` flag. -/
structure ChecklistItem where
  standard : String
  directiveCode : String
  sectionCode : String
  clauseId : String
  domain : String
  requirement : String
  facilityClass : String
  mandatory : Bool
  reference : String
deriving DecidableEq

/-- The checklist reshaping of one record. -/
def toChecklistItem (r : NormalizedRecord) : ChecklistItem :=
  { standard := r.standard, directiveCode := r.directiveCode,
    sectionCode := r.sectionCode, clauseId := r.clauseId, domain := r.domain,
    requirement := r.text, facilityClass := r.facilityClass, mandatory := true,
    reference := r.reference }

/-- The `generateChecklist` handler (lines 569-635): mandatory standards
filter, then the soft facilityClass and domains filters - each applied over
the subset with a non-empty value for the attribute and kept only when it
matches at least one record. -/
def generateChecklist (data : List NormalizedRecord) (standards : Option (List String))
    (facilityClass : Option String) (domains : Option (List String)) :
    Except String (List ChecklistItem) :=
  match standards with
  | none => .error "standards array is required and must not be empty"
  | some ss =>
    if ss.length = 0 then .error "standards array is required and must not be empty"
    else
      let results := data.filter (fun r =>
        ss.any (fun s => containsSubS (lowerS r.standard) (lowerS s)))
      let results : List NormalizedRecord :=
        match facilityClass with
        | some fcRaw =>
          if fcRaw ≠ "" then
            let fc := lowerS fcRaw
            let withFc := results.filter (fun r => 0 < r.facilityClass.length)
            if 0 < withFc.length then
              let filtered := withFc.filter (fun r => containsSubS (lowerS r.facilityClass) fc)
              if 0 < filtered.length then filtered else results
            else results
          else results
        | none => results
      let results : List NormalizedRecord :=
        match domains with
        | some ds =>
          if 0 < ds.length then
            let dsl := ds.map lowerS
            let withDomain := results.filter (fun r => 0 < r.domain.length)
            if 0 < withDomain.length then
              let filtered := withDomain.filter (fun r =>
                dsl.any (fun d => containsSubS (lowerS r.domain) d))
              if 0 < filtered.length then filtered else results
            else results
          else results
        | none => results
      .ok (results.map toChecklistItem)

/-!
Concrete inputs used by the theorems below.
-/

/-- A 10,001-character text body. -/
def c1text : String := String.mk (List.replicate 10001 'x')

/-- A Generic document carrying only the long text body. -/
def c1doc : Json := Json.obj [("text", Json.str c1text)]

/-- A Generic document with its own title and a nested `requirements` array. -/
def c2doc : Json :=
  Json.obj [("title", Json.str "T"),
    ("requirements", Json.arr [Json.obj [("title", Json.str "R1")]])]

/-- A standards-matched record with empty facilityClass. -/
def c3rec : NormalizedRecord :=
  { standard := "HCIS_SEC", directiveCode := "SEC-01", sectionCode := "4.1",
    clauseId := "4.1.1", title := "Access control", text := "Control access.",
    facilityClass := "", domain := "security", tags := [], reference := "R" }

/-- A Generic document with a title only. -/
def c4doc : Json := Json.obj [("title", Json.str "T")]

/-- The record the Generic fallback assembles from `c4doc`. -/
def c4rec : NormalizedRecord :=
  { standard := "STD", directiveCode := "", sectionCode := "", clauseId := "",
    title := "T", text := "", facilityClass := "", domain := "general",
    tags := [], reference := "STD" }

/-- A 122-character paragraph with no digit labels or article markers. -/
def c5p1 : String := "The perimeter fence of the facility shall be maintained and inspected at regular intervals and kept free of climbing aids."

/-- A 44-character second paragraph. -/
def c5p2 : String := "Gates shall be locked outside working hours."

/-- Two blank-line separated paragraphs, 168 characters in total. -/
def c5content : String := c5p1 ++ "\n\n" ++ c5p2

/-- Two long paragraphs, 248 characters in total. -/
def c5wcontent : String := c5p1 ++ "\n\n" ++ c5p1

/-- A text with exactly 2 numbered-clause matches and 3 article matches. -/
def c6a : String := "1.1 aaaa bbbb cccc dddd Article (1): foo Article (2): boo Article (3): zoo 2.2 ppp qqq rrr"

/-- A text with exactly 1 numbered-clause match and no other strategy
reaching 2 matches. -/
def c6b : String := "1.1 aaaa bbbb cccc dddd eeee"

/-- A record stored under reference "HCIS_SEC SEC-05 4.3.2". -/
def c7rec : NormalizedRecord :=
  { standard := "HCIS_SEC", directiveCode := "SEC-05", sectionCode := "4.3",
    clauseId := "4.3.2", title := "Perimeter", text := "Gates locked.",
    facilityClass := "", domain := "security", tags := [],
    reference := "HCIS_SEC SEC-05 4.3.2" }

/-- A 121-character free text with no cascade matches, segmented through the
whole-document fallback. -/
def c8content : String := "All perimeter fencing of the facility shall be maintained and inspected at regular intervals and kept free of vegetation."

/-- The whole-document record the segmenter emits for `c8content` with an
empty directiveCode. -/
def c8wrec : NormalizedRecord := wholeDocRecord c8content "STD" "" "4.3" "security"

/-- The same record, named for the text-cap witness. -/
def c1wrec : NormalizedRecord := wholeDocRecord c8content "STD" "" "4.3" "security"

/-- A record matched by the sample search below. -/
def c9rec : NormalizedRecord :=
  { standard := "HCIS_SEC", directiveCode := "SEC-01", sectionCode := "4.1",
    clauseId := "4.1.1", title := "Security perimeter", text := "Fences shall be high.",
    facilityClass := "", domain := "security", tags := [], reference := "R1" }

/-- A search body with a standard filter, a query and an explicit limit. -/
def c9body : SearchBody :=
  ⟨some "hcis", none, none, none, some "fences", some 10⟩

/-- First corpus record, stored reference "A". -/
def c10r1 : NormalizedRecord :=
  { standard := "S", directiveCode := "", sectionCode := "", clauseId := "",
    title := "T1", text := "x", facilityClass := "", domain := "d", tags := [],
    reference := "A" }

/-- Second corpus record, stored reference "___" (normalizes to ""). -/
def c10r2 : NormalizedRecord :=
  { standard := "S", directiveCode := "", sectionCode := "", clauseId := "",
    title := "T2", text := "x", facilityClass := "", domain := "d", tags := [],
    reference := "___" }

set_option maxRecDepth 100000

/-!
Helper lemmas shared by the claim theorems.
-/

/-- Unwrapping membership in a guarded list. -/
theorem mem_ite_nil {α : Type} {c : Prop} [Decidable c] {l : List α} {r : α}
    (h : r ∈ (if c then l else [])) : r ∈ l := by
  split at h <;> simp_all

/-- Unwrapping membership in a guarded singleton. -/
theorem mem_ite_singleton {α : Type} {c : Prop} [Decidable c] {x r : α}
    (h : r ∈ (if c then [x] else [])) : r = x := by
  split at h <;> simp_all

/-- Membership in the segmenter output comes from one of the three paths. -/
theorem mem_parse_cases {r : NormalizedRecord} {content std dir sec dom : String}
    (hr : r ∈ parseContentIntoClauses content std dir sec dom) :
    r ∈ cascadeRecords (selectMatches content) std dir sec dom ∨
    r ∈ paragraphRecords content std dir sec dom ∨
    r = wholeDocRecord content std dir sec dom := by
  simp only [parseContentIntoClauses] at hr
  split at hr
  · simp at hr
  · simp only [List.mem_append] at hr
    rcases hr with (h | h) | h
    · exact Or.inl h
    · exact Or.inr (Or.inl (mem_ite_nil h))
    · exact Or.inr (Or.inr (mem_ite_singleton h))

/-- Appending a one-character literal splits off the space. -/
theorem strAppendOne (s : String) : s ++ " 1" = s ++ " " ++ "1" := by
  apply String.ext
  show s.data ++ " 1".data = (s.data ++ " ".data) ++ "1".data
  rw [List.append_assoc]
  rfl

/-- A record produced by one cascade match has text capped at 10,000 and the
trimmed synthesized reference. -/
theorem cascadeRecord_shape {std dir sec dom : String} {im : Nat × (List Char × List Char)}
    {r : NormalizedRecord} (h : cascadeRecord std dir sec dom im = some r) :
    r.text.length ≤ 10000 ∧
    r.reference = jsTrimS (std ++ " " ++ dir ++ " " ++ sec ++ " " ++ r.clauseId) := by
  simp only [cascadeRecord] at h
  split at h
  · cases h
    constructor
    · show ((jsTrim (collapseWs (jsTrim im.2.2))).take 10000).length ≤ 10000
      simp [List.length_take]
    · rfl
  · cases h

/-- A record produced by one paragraph has text capped at 10,000 and the
trimmed synthesized reference. -/
theorem paraRecord_shape {minLen : Nat} {std dir sec dom : String} {ip : Nat × List Char}
    {r : NormalizedRecord} (h : paraRecord minLen std dir sec dom ip = some r) :
    r.text.length ≤ 10000 ∧
    r.reference = jsTrimS (std ++ " " ++ dir ++ " " ++ sec ++ " " ++ r.clauseId) := by
  simp only [paraRecord] at h
  split at h
  · cases h
    constructor
    · show ((collapseWs (jsTrim ip.2)).take 10000).length ≤ 10000
      simp [List.length_take]
    · rfl
  · cases h

/-- The whole-document record has capped text and the trimmed reference. -/
theorem wholeDocRecord_shape (content std dir sec dom : String) :
    (wholeDocRecord content std dir sec dom).text.length ≤ 10000 ∧
    (wholeDocRecord content std dir sec dom).reference =
      jsTrimS (std ++ " " ++ dir ++ " " ++ sec ++ " " ++
        (wholeDocRecord content std dir sec dom).clauseId) := by
  constructor
  · show ((collapseWs (jsTrim content.data)).take 10000).length ≤ 10000
    simp [List.length_take]
  · show jsTrimS (std ++ " " ++ dir ++ " " ++ sec ++ " 1") =
      jsTrimS (std ++ " " ++ dir ++ " " ++ sec ++ " " ++ "1")
    rw [strAppendOne]

/-- The long text has 10,001 characters. -/
theorem c1text_len : c1text.length = 10001 := by
  show (List.replicate 10001 'x').length = 10001
  exact List.length_replicate 10001 'x'

/-- The long text is truthy. -/
theorem c1text_ne : c1text ≠ "" := by
  intro h
  have h2 : c1text.length = 0 := by rw [h]; rfl
  rw [c1text_len] at h2
  omega

/-- Records surviving the title-or-text filter satisfy the invariant. -/
theorem titleOrText_of_filter {r : NormalizedRecord} {l : List NormalizedRecord}
    (h : r ∈ l.filter (fun r => r.title ≠ "" || r.text ≠ "")) :
    r.title ≠ "" ∨ r.text ≠ "" := by
  have h2 := (List.mem_filter.mp h).2
  simpa using h2

/-- Every HCIS-walk record has a non-empty title or text. -/
theorem fromHcis_titleOrText {raw : Json} {std dom : String} {r : NormalizedRecord}
    (hr : r ∈ fromHcis raw std dom) : r.title ≠ "" ∨ r.text ≠ "" := by
  unfold fromHcis at hr
  rcases hd : raw.get "directives" with _ | s | ds | kvs <;> rw [hd] at hr
  · simp at hr
  · simp at hr
  · exact titleOrText_of_filter hr
  · simp at hr

/-- Every document-walk record has a non-empty title or text. -/
theorem fromDocumentStructure_titleOrText {raw : Json} {std dom : String}
    {r : NormalizedRecord} (hr : r ∈ fromDocumentStructure raw std dom) :
    r.title ≠ "" ∨ r.text ≠ "" := by
  unfold fromDocumentStructure at hr
  rcases hd : (raw.get "document").get "structured_sections" with _ | s | ds | kvs <;>
    rw [hd] at hr
  · simp at hr
  · simp at hr
  · exact titleOrText_of_filter hr
  · simp at hr

/-- The title-or-text invariant, by strong induction on document size. -/
theorem normRecordAux : ∀ (n : Nat) (doc : Json), sizeOf doc ≤ n →
    ∀ (std dom fn : String) (r : NormalizedRecord),
      r ∈ normalizeRecord doc std dom fn → r.title ≠ "" ∨ r.text ≠ "" := by
  intro n
  induction n with
  | zero =>
    intro doc hle
    exfalso
    cases doc <;> simp at hle
  | succ n ih =>
    intro doc hle std dom fn r hr
    rw [normalizeRecord.eq_def] at hr
    split at hr
    · exact fromHcis_titleOrText hr
    · split at hr
      · exact fromDocumentStructure_titleOrText hr
      · cases doc with
        | arr items =>
          simp only [List.mem_flatten, List.mem_map, List.mem_attach] at hr
          obtain ⟨l, ⟨item, _, hl⟩, hrl⟩ := hr
          subst hl
          have hsz := List.sizeOf_lt_of_mem item.2
          have hle2 : sizeOf item.1 ≤ n := by
            simp at hle
            omega
          exact ih item.1 hle2 std dom fn r hrl
        | null =>
          dsimp only at hr
          split at hr
          · rename_i hg
            rw [List.mem_singleton] at hr
            subst hr
            simpa using hg
          · simp at hr
        | str s =>
          dsimp only at hr
          split at hr
          · rename_i hg
            rw [List.mem_singleton] at hr
            subst hr
            simpa using hg
          · simp at hr
        | obj kvs =>
          dsimp only at hr
          split at hr
          · rename_i hg
            rw [List.mem_singleton] at hr
            subst hr
            simpa using hg
          · simp at hr

/-- A list is a prefix of itself under the boolean test. -/
theorem isPrefixOf_self (l : List Char) : l.isPrefixOf l = true := by
  induction l with
  | nil => rfl
  | cons a t ih => simp [List.isPrefixOf, ih]

/-- Every string ends with itself. -/
theorem endsWithS_self (s : String) : endsWithS s s = true :=
  isPrefixOf_self s.data.reverse

/-- Every string ends with the empty string. -/
theorem endsWithS_empty (s : String) : endsWithS s "" = true := by
  show List.isPrefixOf [] s.data.reverse = true
  cases s.data.reverse <;> rfl

/-- Records of a conditionally filtered list belong to the base list and
satisfy the filter when it was applied. -/
theorem mem_iteFilter {c : Prop} [Decidable c] {p : NormalizedRecord → Bool}
    {l : List NormalizedRecord} {r : NormalizedRecord}
    (h : r ∈ (if c then l.filter p else l)) : r ∈ l ∧ (c → p r = true) := by
  split at h
  · have h2 := List.mem_filter.mp h
    exact ⟨h2.1, fun _ => h2.2⟩
  · rename_i hc
    exact ⟨h, fun hcc => absurd hcc hc⟩

/-!
Claim theorems.
-/

/-- C1 (corrected, counterexample): a Generic document with a 10,001
character text field produces a corpus record whose text exceeds the
claimed 10,000-character cap - the cap is applied only on the segmenter
path, not in `fromHcis`, `fromDocumentStructure` or the Generic fallback. -/
theorem c1_counterexample :
    (normalizeRecord c1doc "STD" "general" "f.json").map (fun r => r.text) = [c1text] ∧
    10000 < c1text.length := by
  constructor
  · rw [normalizeRecord.eq_def]
    simp only [c1doc]
    simp [Json.get, Json.isArr, Json.truthy, genericRecord, jsOr, firstTruthy,
      Json.asStr, jsTags, jsTrimS, c1text_ne, List.find?]
  · rw [c1text_len]
    omega

/-- C1 (amended): every segmenter-derived record (the only records the
source truncates) has its `text` capped at 10,000 characters;
explicit-clause and Generic records store the source text unmodified. -/
theorem c1_amended_segmenter_text_capped (content std dir sec dom : String)
    (r : NormalizedRecord) (hr : r ∈ parseContentIntoClauses content std dir sec dom) :
    r.text.length ≤ 10000 := by
  rcases mem_parse_cases hr with h | h | h
  · simp only [cascadeRecords] at h
    rw [List.mem_filterMap] at h
    obtain ⟨im, _, him⟩ := h
    exact (cascadeRecord_shape him).1
  · simp only [paragraphRecords] at h
    split at h <;>
      (rw [List.mem_filterMap] at h
       obtain ⟨ip, _, hip⟩ := h
       exact (paraRecord_shape hip).1)
  · subst h
    exact (wholeDocRecord_shape content std dir sec dom).1

/-- C1 witness: the whole-document record for the sample content obeys the
cap. -/
theorem c1_amended_witness : c1wrec.text.length ≤ 10000 :=
  c1_amended_segmenter_text_capped c8content "STD" "" "4.3" "security" c1wrec (by decide)

/-- C2 (corrected, counterexample): a Generic document exposing a
`requirements` array is NOT recursed into; only its own record (title "T")
is produced and the nested record (title "R1") never appears. -/
theorem c2_counterexample :
    (normalizeRecord c2doc "STD" "general" "f.json").map (fun r => r.title) = ["T"] := by
  rw [normalizeRecord.eq_def]
  decide

/-- C2 (amended): an object document matching neither the DirectiveRooted
nor the SectionRooted shape yields at most one record - the current
`normalizeRecord` has no recursion into requirements / sections / clauses /
items arrays (only a document that is itself an array is recursed
element-wise). -/
theorem c2_amended_generic_single (kvs : List (String × Json)) (std dom fn : String)
    (h1 : ((Json.obj kvs).get "directives").isArr = false)
    (h2 : (((Json.obj kvs).get "document").truthy &&
        (((Json.obj kvs).get "document").get "structured_sections").truthy) = false) :
    (normalizeRecord (Json.obj kvs) std dom fn).length ≤ 1 := by
  rw [normalizeRecord.eq_def]
  rw [if_neg (by simp [h1]), if_neg (by simp [h2])]
  dsimp only
  split <;> simp

/-- C2 witness: the counterexample document itself yields one record. -/
theorem c2_amended_witness :
    (normalizeRecord (Json.obj [("title", Json.str "T"),
      ("requirements", Json.arr [Json.obj [("title", Json.str "R1")]])])
      "STD" "general" "f.json").length ≤ 1 :=
  c2_amended_generic_single _ "STD" "general" "f.json" (by decide) (by decide)

/-- C3 (confirmed): in checklist generation the facilityClass and domains
filters are soft - when the membership test over the records carrying the
attribute selects nothing, the standards-matched result set is kept in
full. -/
theorem c3_soft_filter (data : List NormalizedRecord) (ss : List String) (fc : String)
    (ds : List String) (hss : ss ≠ []) (hfc : fc ≠ "") (hds : ds ≠ [])
    (hN : data.filter (fun r => ss.any (fun s => containsSubS (lowerS r.standard) (lowerS s))) ≠ [])
    (hfcEmpty : ((data.filter (fun r =>
        ss.any (fun s => containsSubS (lowerS r.standard) (lowerS s)))).filter
          (fun r => 0 < r.facilityClass.length)).filter
          (fun r => containsSubS (lowerS r.facilityClass) (lowerS fc)) = [])
    (hdsEmpty : ((data.filter (fun r =>
        ss.any (fun s => containsSubS (lowerS r.standard) (lowerS s)))).filter
          (fun r => 0 < r.domain.length)).filter
          (fun r => (ds.map lowerS).any (fun d => containsSubS (lowerS r.domain) d)) = []) :
    generateChecklist data (some ss) (some fc) (some ds) =
      .ok ((data.filter (fun r =>
        ss.any (fun s => containsSubS (lowerS r.standard) (lowerS s)))).map toChecklistItem) := by
  simp only [generateChecklist]
  rw [if_neg (by simpa using hss)]
  rw [hfcEmpty]
  simp only [List.length_nil, lt_self_iff_false, if_false, ite_self]
  rw [hdsEmpty]
  simp only [List.length_nil, lt_self_iff_false, if_false, ite_self]

/-- C3 witness: a facilityClass and a domain list matching nothing leave
the single standards-matched record in the checklist. -/
theorem c3_witness :
    generateChecklist [c3rec] (some ["hcis"]) (some "zzz") (some ["building"]) =
      .ok (([c3rec].filter (fun r =>
        ["hcis"].any (fun s => containsSubS (lowerS r.standard) (lowerS s)))).map
          toChecklistItem) :=
  c3_soft_filter [c3rec] ["hcis"] "zzz" ["building"] (by decide) (by decide) (by decide)
    (by decide) (by decide) (by decide)

/-- C4 (confirmed): every record of the finished corpus has a non-empty
title or a non-empty text, on every assembly path (HCIS walk, document
walk, array recursion, Generic fallback, segmenter records). -/
theorem c4_title_or_text (doc : Json) (std dom fn : String) (r : NormalizedRecord)
    (hr : r ∈ normalizeRecord doc std dom fn) : r.title ≠ "" ∨ r.text ≠ "" :=
  normRecordAux (sizeOf doc) doc le_rfl std dom fn r hr

/-- C4 witness: the record assembled from the sample Generic document. -/
theorem c4_witness : c4rec.title ≠ "" ∨ c4rec.text ≠ "" :=
  c4_title_or_text c4doc "STD" "general" "f.json" c4rec
    (by rw [normalizeRecord.eq_def]
        decide)

/-- C5 (corrected, counterexample): no cascade strategy matches this
168-character text at all, yet the segmenter does NOT fall back to
paragraph splitting (that requires content longer than 200 characters); it
emits the whole-document record, whose 167-character text differs from the
single 122-character record paragraph splitting would produce. -/
theorem c5_counterexample :
    numberedMatches c5content = [] ∧ articleMatches c5content = [] ∧
    sectionMatches c5content = [] ∧
    (parseContentIntoClauses c5content "STD" "" "SEC" "gen").map (fun r => r.text.length) =
      [167] ∧
    (paragraphRecords c5content "STD" "" "SEC" "gen").map (fun r => r.text.length) = [122] := by
  refine ⟨by decide, by decide, by decide, by decide, by decide⟩

/-- C5 (amended): the paragraph fallback runs exactly when the cascade
emitted no records AND the content exceeds 200 characters; the
whole-document record is appended only when paragraph splitting also came
up empty. -/
theorem c5_amended_paragraph_gate (content std dir sec dom : String)
    (h1 : jsTrim content.data ≠ [])
    (h2 : cascadeRecords (selectMatches content) std dir sec dom = [])
    (h3 : 200 < content.length) :
    parseContentIntoClauses content std dir sec dom =
      paragraphRecords content std dir sec dom ++
        (if paragraphRecords content std dir sec dom = [] then
          [wholeDocRecord content std dir sec dom]
        else []) := by
  have h100 : 100 < content.length := by omega
  simp only [parseContentIntoClauses]
  rw [if_neg (by simpa using h1)]
  simp [h2, h3, h100]

/-- C5 witness: a 248-character two-paragraph text takes the paragraph
fallback. -/
theorem c5_amended_witness :
    parseContentIntoClauses c5wcontent "STD" "" "SEC" "gen" =
      paragraphRecords c5wcontent "STD" "" "SEC" "gen" ++
        (if paragraphRecords c5wcontent "STD" "" "SEC" "gen" = [] then
          [wholeDocRecord c5wcontent "STD" "" "SEC" "gen"]
        else []) :=
  c5_amended_paragraph_gate c5wcontent "STD" "" "SEC" "gen" (by decide) (by decide) (by decide)

/-- C6 (confirmed): the cascade tries numbered, article, section strictly in
that order with the more-than-one-match threshold: with exactly 2 numbered
and 3 article matches the numbered matches are selected; with exactly 1
numbered match and no other strategy above the threshold no cascade
strategy is selected and the segmenter output is the paragraph /
whole-document fallback alone. -/
theorem c6_cascade_priority :
    (∀ cA : String, (numberedMatches cA).length = 2 → (articleMatches cA).length = 3 →
      selectMatches cA = numberedMatches cA) ∧
    (∀ (cB std dir sec dom : String), (numberedMatches cB).length = 1 →
      (articleMatches cB).length ≤ 1 → (sectionMatches cB).length ≤ 1 →
      selectMatches cB = [] ∧
      parseContentIntoClauses cB std dir sec dom =
        (if (jsTrim cB.data).length = 0 then []
         else
           (if 200 < cB.length then paragraphRecords cB std dir sec dom else []) ++
             (if (if 200 < cB.length then paragraphRecords cB std dir sec dom else []) = [] ∧
                 100 < cB.length then
               [wholeDocRecord cB std dir sec dom]
             else []))) := by
  constructor
  · intro cA h2 _
    simp [selectMatches, h2]
  · intro cB std dir sec dom hn ha hs
    have hsel : selectMatches cB = [] := by
      simp only [selectMatches]
      rw [if_neg (by omega), if_neg (by omega), if_neg (by omega)]
    refine ⟨hsel, ?_⟩
    simp only [parseContentIntoClauses, hsel]
    simp [cascadeRecords]

/-- C6 witness: the two sample texts exercise both parts of the cascade
priority claim. -/
theorem c6_witness :
    selectMatches c6a = numberedMatches c6a ∧
    (selectMatches c6b = [] ∧
      parseContentIntoClauses c6b "STD" "D" "S" "gen" =
        (if (jsTrim c6b.data).length = 0 then []
         else
           (if 200 < c6b.length then paragraphRecords c6b "STD" "D" "S" "gen" else []) ++
             (if (if 200 < c6b.length then paragraphRecords c6b "STD" "D" "S" "gen" else []) = [] ∧
                 100 < c6b.length then
               [wholeDocRecord c6b "STD" "D" "S" "gen"]
             else []))) :=
  ⟨c6_cascade_priority.1 c6a (by decide) (by decide),
   c6_cascade_priority.2 c6b "STD" "D" "S" "gen" (by decide) (by decide) (by decide)⟩

/-- C7 (confirmed): reference lookup is invariant under
normalization-equivalent non-empty queries; with no suffix match anywhere
it reports not-found; and a query equal to a stored reference up to
normalization resolves the first such record - in particular
"hcis sec sec-05 4.3.2" resolves a record stored as
"HCIS_SEC SEC-05 4.3.2". -/
theorem c7_reference_resolution :
    (∀ (data : List NormalizedRecord) (q1 q2 : String), q1 ≠ "" → q2 ≠ "" →
      normalizeRefString q1 = normalizeRefString q2 →
      getReference data (some q1) = getReference data (some q2)) ∧
    (∀ (data : List NormalizedRecord) (q : String), q ≠ "" →
      (∀ r ∈ data, endsWithS (normalizeRefString r.reference) (normalizeRefString q) = false) →
      getReference data (some q) = .error "Reference not found") ∧
    (∀ (data : List NormalizedRecord) (r0 : NormalizedRecord)
        (rest : List NormalizedRecord), data = r0 :: rest →
      r0.reference = "HCIS_SEC SEC-05 4.3.2" →
      getReference data (some "hcis sec sec-05 4.3.2") = .ok r0) := by
  refine ⟨?_, ?_, ?_⟩
  · intro data q1 q2 h1 h2 heq
    simp only [getReference]
    rw [if_neg h1, if_neg h2, heq]
  · intro data q hq hsuf
    simp only [getReference]
    rw [if_neg hq]
    have hex : data.find? (fun r => normalizeRefString r.reference == normalizeRefString q) = none := by
      rw [List.find?_eq_none]
      intro r hr hbe
      have heq : normalizeRefString r.reference = normalizeRefString q := eq_of_beq hbe
      have hs := hsuf r hr
      rw [heq] at hs
      rw [endsWithS_self] at hs
      exact absurd hs (by decide)
    rw [hex]
    have hex2 : data.find? (fun r => endsWithS (normalizeRefString r.reference) (normalizeRefString q)) = none := by
      rw [List.find?_eq_none]
      intro r hr hbe
      rw [hsuf r hr] at hbe
      exact absurd hbe (by decide)
    rw [hex2]
  · intro data r0 rest hdata href
    subst hdata
    simp only [getReference]
    rw [if_neg (by decide : ¬("hcis sec sec-05 4.3.2" : String) = "")]
    rw [List.find?_cons_of_pos]
    · rw [href]
      decide

/-- C7 witness: the sample record is resolved identically by
normalization-equivalent queries, misses report not-found, and the
lower-case underscore-free query resolves the stored reference. -/
theorem c7_witness :
    getReference [c7rec] (some "hcis sec sec-05 4.3.2") =
      getReference [c7rec] (some "HCIS_SEC  SEC-05   4.3.2") ∧
    getReference [c7rec] (some "zzz") = .error "Reference not found" ∧
    getReference [c7rec] (some "hcis sec sec-05 4.3.2") = .ok c7rec :=
  ⟨c7_reference_resolution.1 [c7rec] _ _ (by decide) (by decide) (by decide),
   c7_reference_resolution.2.1 [c7rec] "zzz" (by decide) (by decide),
   c7_reference_resolution.2.2 [c7rec] c7rec [] rfl (by decide)⟩

/-- C8 (corrected, counterexample): with an empty directiveCode the stored
segmenter reference keeps two consecutive interior spaces - the template is
only trimmed, never whitespace-collapsed. -/
theorem c8_counterexample :
    (parseContentIntoClauses c8content "STD" "" "4.3" "security").map (fun r => r.reference) =
      ["STD  4.3 1"] ∧
    containsSubS "STD  4.3 1" "  " = true := by
  constructor
  · decide
  · decide

/-- C8 (amended): every segmenter record's synthesized reference equals the
TRIMMED `"{standard} {directiveCode} {sectionCode} {clauseId}"` template;
leading and trailing whitespace is removed but interior whitespace is not
collapsed, so empty components leave consecutive spaces. -/
theorem c8_amended_reference_trimmed (content std dir sec dom : String)
    (r : NormalizedRecord) (hr : r ∈ parseContentIntoClauses content std dir sec dom) :
    r.reference = jsTrimS (std ++ " " ++ dir ++ " " ++ sec ++ " " ++ r.clauseId) := by
  rcases mem_parse_cases hr with h | h | h
  · simp only [cascadeRecords] at h
    rw [List.mem_filterMap] at h
    obtain ⟨im, _, him⟩ := h
    exact (cascadeRecord_shape him).2
  · simp only [paragraphRecords] at h
    split at h <;>
      (rw [List.mem_filterMap] at h
       obtain ⟨ip, _, hip⟩ := h
       exact (paraRecord_shape hip).2)
  · subst h
    exact (wholeDocRecord_shape content std dir sec dom).2

/-- C8 witness: the sample whole-document record carries the trimmed
template as its reference. -/
theorem c8_amended_witness :
    c8wrec.reference = jsTrimS ("STD" ++ " " ++ "" ++ " " ++ "4.3" ++ " " ++ c8wrec.clauseId) :=
  c8_amended_reference_trimmed c8content "STD" "" "4.3" "security" c8wrec (by decide)

/-- C9 (confirmed): search rejects exactly when every filter is falsy;
otherwise it returns at most `limit` (default 50) records of the corpus,
each satisfying every supplied filter (field substring, fuzzy match on
title or text for the query). -/
theorem c9_search_validation_and_narrowing :
    (∀ (data : List NormalizedRecord) (b : SearchBody),
      (truthyOpt b.standard || truthyOpt b.directiveCode || truthyOpt b.facilityClass ||
        truthyOpt b.domain || truthyOpt b.query) = false →
      searchRequirements data b =
        .error "At least one filter is required (standard, directiveCode, facilityClass, domain, or query)") ∧
    (∀ (data : List NormalizedRecord) (b : SearchBody),
      (truthyOpt b.standard || truthyOpt b.directiveCode || truthyOpt b.facilityClass ||
        truthyOpt b.domain || truthyOpt b.query) = true →
      ∃ out, searchRequirements data b = .ok out) ∧
    (∀ (data : List NormalizedRecord) (b : SearchBody) (out : List NormalizedRecord),
      searchRequirements data b = .ok out →
      out.length ≤ b.limit.getD 50 ∧
      ∀ r ∈ out, r ∈ data ∧
        (truthyOpt b.standard = true →
          containsSubS (lowerS r.standard) (lowerS (b.standard.getD "")) = true) ∧
        (truthyOpt b.directiveCode = true →
          containsSubS (lowerS r.directiveCode) (lowerS (b.directiveCode.getD "")) = true) ∧
        (truthyOpt b.facilityClass = true →
          containsSubS (lowerS r.facilityClass) (lowerS (b.facilityClass.getD "")) = true) ∧
        (truthyOpt b.domain = true →
          containsSubS (lowerS r.domain) (lowerS (b.domain.getD "")) = true) ∧
        (truthyOpt b.query = true →
          (fuzzyMatch r.title (b.query.getD "") || fuzzyMatch r.text (b.query.getD "")) = true)) := by
  refine ⟨?_, ?_, ?_⟩
  · intro data b h
    simp only [searchRequirements]
    rw [if_pos (by simp [h])]
  · intro data b h
    simp only [searchRequirements]
    rw [if_neg (by simp [h])]
    exact ⟨_, rfl⟩
  · intro data b out hok
    simp only [searchRequirements] at hok
    by_cases hC : (truthyOpt b.standard || truthyOpt b.directiveCode ||
        truthyOpt b.facilityClass || truthyOpt b.domain || truthyOpt b.query) = true
    · rw [if_neg (by simp [hC])] at hok
      injection hok with hout
      subst hout
      constructor
      · exact List.length_take_le _ _
      · intro r hr
        obtain ⟨h5m, h5⟩ := mem_iteFilter (List.mem_of_mem_take hr)
        obtain ⟨h4m, h4⟩ := mem_iteFilter h5m
        obtain ⟨h3m, h3⟩ := mem_iteFilter h4m
        obtain ⟨h2m, h2⟩ := mem_iteFilter h3m
        obtain ⟨h1m, h1⟩ := mem_iteFilter h2m
        exact ⟨h1m, h1, h2, h3, h4, h5⟩
    · rw [if_pos (by simpa using hC)] at hok
      exact absurd hok (by simp)

/-- C9 witness: the empty body is rejected; a standard-plus-query body over
the one-record corpus succeeds within its limit and the returned record
satisfies every supplied filter. -/
theorem c9_witness :
    searchRequirements [] ⟨none, none, none, none, none, none⟩ =
      .error "At least one filter is required (standard, directiveCode, facilityClass, domain, or query)" ∧
    (∃ out, searchRequirements [c9rec] c9body = .ok out) ∧
    [c9rec].length ≤ c9body.limit.getD 50 ∧
    (c9rec ∈ ([c9rec] : List NormalizedRecord) ∧
      (truthyOpt c9body.standard = true →
        containsSubS (lowerS c9rec.standard) (lowerS (c9body.standard.getD "")) = true) ∧
      (truthyOpt c9body.directiveCode = true →
        containsSubS (lowerS c9rec.directiveCode) (lowerS (c9body.directiveCode.getD "")) = true) ∧
      (truthyOpt c9body.facilityClass = true →
        containsSubS (lowerS c9rec.facilityClass) (lowerS (c9body.facilityClass.getD "")) = true) ∧
      (truthyOpt c9body.domain = true →
        containsSubS (lowerS c9rec.domain) (lowerS (c9body.domain.getD "")) = true) ∧
      (truthyOpt c9body.query = true →
        (fuzzyMatch c9rec.title (c9body.query.getD "") ||
          fuzzyMatch c9rec.text (c9body.query.getD "")) = true)) :=
  ⟨c9_search_validation_and_narrowing.1 [] ⟨none, none, none, none, none, none⟩ (by decide),
   c9_search_validation_and_narrowing.2.1 [c9rec] c9body (by decide),
   (c9_search_validation_and_narrowing.2.2 [c9rec] c9body [c9rec] (by rfl)).1,
   (c9_search_validation_and_narrowing.2.2 [c9rec] c9body [c9rec] (by rfl)).2 c9rec (by decide)⟩

/-- C10 (corrected, counterexample): with a stored reference "___" (which
normalizes to the empty string) in second position, the non-empty query "_"
(also normalizing to empty) resolves through the EXACT-match step to that
second record - not to the first record of the Corpus as claimed. -/
theorem c10_counterexample :
    getReference [c10r1, c10r2] (some "_") = .ok c10r2 ∧ c10r2 ≠ c10r1 :=
  ⟨by rfl, by decide⟩

/-- C10 (amended): a non-empty query normalizing to the empty string never
yields not-found on a non-empty corpus: it resolves to the first record
whose stored reference also normalizes to empty, or failing that to the
first record of the corpus via the always-true empty-suffix match. -/
theorem c10_amended_empty_norm_lookup (data : List NormalizedRecord)
    (r0 : NormalizedRecord) (rest : List NormalizedRecord) (q : String)
    (hq : q ≠ "") (hn : normalizeRefString q = "") (hdata : data = r0 :: rest) :
    getReference data (some q) =
      .ok ((data.find? (fun r => normalizeRefString r.reference == "")).getD r0) := by
  subst hdata
  simp only [getReference]
  rw [if_neg hq, hn]
  cases hfind : (r0 :: rest).find? (fun r => normalizeRefString r.reference == ("" : String)) with
  | some r => simp [hfind]
  | none =>
    simp only [hfind]
    rw [List.find?_cons_of_pos]
    · simp
    · exact endsWithS_empty _

/-- C10 witness: the two-record corpus and the query "_". -/
theorem c10_amended_witness :
    getReference [c10r1, c10r2] (some "_") =
      .ok (([c10r1, c10r2].find? (fun r => normalizeRefString r.reference == "")).getD c10r1) :=
  c10_amended_empty_norm_lookup [c10r1, c10r2] c10r1 [c10r2] "_" (by decide) (by decide) rfl
